import Mathlib

/-!
Verification of the ChroniclesOfChrozal world-topology and containment
subsystem: a shallow embedding of the Postgres schema (`src/unnamed/part_004`),
the admin-portal room/exit editing flow
(`src/admin_portal/frontend/src/pages/RoomEdit.jsx`), and the world-service
operations the spec describes over them.
-/

namespace Chrozal

/-- A model of Postgres `jsonb` values as exchanged by the admin portal. -/
inductive Json where
  | null : Json
  | bool (b : Bool) : Json
  | num (n : Int) : Json
  | str (s : String) : Json
  | arr (elems : List Json) : Json
  | obj (fields : List (String × Json)) : Json

/-- Look up a top-level field of a JSON object. -/
def Json.getField (j : Json) (key : String) : Option Json :=
  match j with
  | .obj fields => fields.lookup key
  | _ => none

/-- Does a JSON value have the given top-level object field? -/
def Json.hasField (j : Json) (key : String) : Bool :=
  (j.getField key).isSome

/-!
## Item instances (`item_instances` table, `src/unnamed/part_004` lines 264-273)

Columns: `id uuid`, `template_id integer NOT NULL`, `owner_char_id integer`,
`room_id integer`, `container_id uuid`, `condition integer NOT NULL`,
`instance_stats jsonb`.  Nullable columns become `Option`; uuids are modelled
as `Nat` identities; the `instance_stats` overlay is the key→number mapping
the spec's external interface names (spec section 6).
-/

structure ItemRow where
  id : Nat
  template_id : Nat
  owner_char_id : Option Nat
  room_id : Option Nat
  container_id : Option Nat
  condition : Int := 100
  instance_stats : List (String × Int) := []
  deriving DecidableEq

/-- The `single_location_check` CHECK constraint of `item_instances`:
`(owner NOT NULL ∧ room NULL ∧ container NULL) ∨ (owner NULL ∧ room NOT NULL ∧
container NULL) ∨ (owner NULL ∧ room NULL ∧ container NOT NULL)`. -/
def single_location_check (r : ItemRow) : Bool :=
  (r.owner_char_id.isSome && r.room_id.isNone && r.container_id.isNone) ||
  (r.owner_char_id.isNone && r.room_id.isSome && r.container_id.isNone) ||
  (r.owner_char_id.isNone && r.room_id.isNone && r.container_id.isSome)

/-- Number of populated placement fields of an item-instance row. -/
def countPopulated (r : ItemRow) : Nat :=
  r.owner_char_id.isSome.toNat + r.room_id.isSome.toNat + r.container_id.isSome.toNat

/-- The CHECK constraint holds exactly when precisely one placement field is
populated. -/
theorem single_location_check_iff (r : ItemRow) :
    single_location_check r = true ↔ countPopulated r = 1 := by
  cases h1 : r.owner_char_id <;> cases h2 : r.room_id <;> cases h3 : r.container_id <;>
    simp [single_location_check, countPopulated, h1, h2, h3]

/-!
## Containment Ledger state

The backing store relevant to item placement: the `item_instances` rows plus
the foreign-key targets they may reference (`rooms.id`, `characters.id`,
container-capable `item_templates.id` — the container-capable mark is the
external template attribute the spec names in section 3).
-/

structure Ledger where
  rows : List ItemRow
  containerCapable : List Nat
  roomIds : List Nat
  charIds : List Nat

def Ledger.findRow (l : Ledger) (instId : Nat) : Option ItemRow :=
  l.rows.find? (fun r => r.id == instId)

/-- The `container_id` reference of an instance, read from the rows. -/
def containerOf (rows : List ItemRow) (instId : Nat) : Option Nat :=
  match rows.find? (fun r => r.id == instId) with
  | some r => r.container_id
  | none => none

/-- Fuelled walk up the container chain: does following `container_id`
references from `a` (including `a` itself) reach `b`? -/
def reachesVia (rows : List ItemRow) : Nat → Nat → Nat → Bool
  | 0, a, b => a == b
  | fuel + 1, a, b =>
    a == b ||
      match containerOf rows a with
      | some c => reachesVia rows fuel c b
      | none => false

/-- Is `a` strictly transitively contained in `b` (at least one `container_id`
step)? -/
def strictlyContained (rows : List ItemRow) (fuel : Nat) (a b : Nat) : Bool :=
  match containerOf rows a with
  | some c => reachesVia rows fuel c b
  | none => false

/-- Rows directly contained in the given instance. -/
def childRows (rows : List ItemRow) (instId : Nat) : List ItemRow :=
  rows.filter (fun r => r.container_id == some instId)

/-- Is the instance's template marked container-capable? -/
def Ledger.capableAt (l : Ledger) (instId : Nat) : Bool :=
  match l.findRow instId with
  | some r => l.containerCapable.contains r.template_id
  | none => false

/-- Error taxonomy of the Containment Ledger (spec section 7). -/
inductive LedgerErr where
  | NotFound
  | UnknownTarget
  | NotAContainer
  | CyclicContainment
  | ContainerNotEmpty
  deriving DecidableEq

/-- Re-parent a row into a room: clears the other two placement fields. -/
def ItemRow.placedInRoom (r : ItemRow) (roomId : Nat) : ItemRow :=
  { r with owner_char_id := none, room_id := some roomId, container_id := none }

/-- Re-parent a row onto a character: clears the other two placement fields. -/
def ItemRow.placedOnChar (r : ItemRow) (charId : Nat) : ItemRow :=
  { r with owner_char_id := some charId, room_id := none, container_id := none }

/-- Re-parent a row into a container: clears the other two placement fields. -/
def ItemRow.placedInCont (r : ItemRow) (contId : Nat) : ItemRow :=
  { r with owner_char_id := none, room_id := none, container_id := some contId }

/-- Modelled from the spec: `placeInRoom` of the Containment Ledger (spec
section 4.2); the service code is not under `src/`, only its schema is.
Atomically re-parents the instance into a room; `UnknownTarget` if the room
does not exist. -/
def placeInRoom (l : Ledger) (itemId roomId : Nat) : Except LedgerErr Ledger :=
  match l.findRow itemId with
  | none => .error .NotFound
  | some _ =>
    if l.roomIds.contains roomId then
      .ok { l with rows := l.rows.map (fun r => if r.id == itemId then r.placedInRoom roomId else r) }
    else .error .UnknownTarget

/-- Modelled from the spec: `placeOnCharacter` of the Containment Ledger (spec
section 4.2); the service code is not under `src/`. -/
def placeOnCharacter (l : Ledger) (itemId charId : Nat) : Except LedgerErr Ledger :=
  match l.findRow itemId with
  | none => .error .NotFound
  | some _ =>
    if l.charIds.contains charId then
      .ok { l with rows := l.rows.map (fun r => if r.id == itemId then r.placedOnChar charId else r) }
    else .error .UnknownTarget

/-- Modelled from the spec: `placeInContainer` of the Containment Ledger (spec
section 4.2); the service code is not under `src/`.  Fails with
`UnknownTarget` if the target instance is absent, `NotAContainer` if its
template is not container-capable, and `CyclicContainment` if the target is,
transitively, the item itself. -/
def placeInContainer (l : Ledger) (itemId contId : Nat) : Except LedgerErr Ledger :=
  match l.findRow itemId with
  | none => .error .NotFound
  | some _ =>
    match l.findRow contId with
    | none => .error .UnknownTarget
    | some cont =>
      if !(l.containerCapable.contains cont.template_id) then .error .NotAContainer
      else if reachesVia l.rows l.rows.length contId itemId then .error .CyclicContainment
      else
        .ok { l with rows := l.rows.map (fun r => if r.id == itemId then r.placedInCont contId else r) }

/-- Modelled from the spec: `removeInstance` of the Containment Ledger (spec
section 4.2); the service code is not under `src/`.  Without the cascade flag
a non-empty container is refused with `ContainerNotEmpty` (matching the
store, where the `ON DELETE SET NULL` cascade would violate
`single_location_check`); with it, the instance and every transitively
contained instance are deleted. -/
def removeInstance (l : Ledger) (itemId : Nat) (cascade : Bool) : Except LedgerErr Ledger :=
  match l.findRow itemId with
  | none => .error .NotFound
  | some _ =>
    if !cascade && !(childRows l.rows itemId).isEmpty then .error .ContainerNotEmpty
    else
      .ok { l with rows :=
              l.rows.filter fun r =>
                !(r.id == itemId || strictlyContained l.rows l.rows.length r.id itemId) }

/-- An operation applied against the store: on error the transaction leaves
the ledger unchanged and the error is reported. -/
def applied (l : Ledger) : Except LedgerErr Ledger → Ledger × Option LedgerErr
  | .ok l' => (l', none)
  | .error e => (l, some e)

/-!
## Raw store operations

PostgreSQL semantics of the DDL in `src/unnamed/part_004`: an `INSERT` or
`UPDATE` on `item_instances` is committed only if `single_location_check`
holds on every written row; `item_instances_owner_char_id_fkey`,
`item_instances_room_id_fkey` and `item_instances_container_id_fkey` are all
`ON DELETE SET NULL`, so deleting the referenced entity performs an `UPDATE`
of the referencing rows that is itself subject to the CHECK constraint — on
violation the whole delete is rejected.
-/

/-- Does an `INSERT` of this row satisfy the declared constraints of
`item_instances` (CHECK, primary key, and the three foreign keys)? -/
def insertOk (l : Ledger) (row : ItemRow) : Bool :=
  single_location_check row &&
  !(l.rows.any (fun r => r.id == row.id)) &&
  (match row.owner_char_id with
   | some c => l.charIds.contains c
   | none => true) &&
  (match row.room_id with
   | some rm => l.roomIds.contains rm
   | none => true) &&
  (match row.container_id with
   | some u => l.rows.any (fun r => r.id == u)
   | none => true)

inductive SqlErr where
  | CheckViolation
  deriving DecidableEq

/-- `INSERT INTO item_instances`, rejected on constraint violation. -/
def insertItem (l : Ledger) (row : ItemRow) : Except SqlErr Ledger :=
  if insertOk l row then .ok { l with rows := row :: l.rows }
  else .error .CheckViolation

/-- The `SET NULL` action of `item_instances_owner_char_id_fkey` on one row. -/
def nullOwner (charId : Nat) (r : ItemRow) : ItemRow :=
  if r.owner_char_id == some charId then { r with owner_char_id := none } else r

/-- The `SET NULL` action of `item_instances_room_id_fkey` on one row. -/
def nullRoom (roomId : Nat) (r : ItemRow) : ItemRow :=
  if r.room_id == some roomId then { r with room_id := none } else r

/-- The `SET NULL` action of `item_instances_container_id_fkey` on one row. -/
def nullCont (instId : Nat) (r : ItemRow) : ItemRow :=
  if r.container_id == some instId then { r with container_id := none } else r

/-- `DELETE FROM characters WHERE id = charId`: the `ON DELETE SET NULL`
cascade nulls `owner_char_id` on referencing item rows, and the resulting
rows must still pass `single_location_check`. -/
def deleteCharacterRaw (l : Ledger) (charId : Nat) : Except SqlErr Ledger :=
  if (l.rows.map (nullOwner charId)).all single_location_check then
    .ok { l with rows := l.rows.map (nullOwner charId),
                 charIds := l.charIds.filter (fun c => !(c == charId)) }
  else .error .CheckViolation

/-- `DELETE FROM rooms WHERE id = roomId`: the `ON DELETE SET NULL` cascade
nulls `room_id` on referencing item rows, subject to the CHECK constraint. -/
def deleteRoomRaw (l : Ledger) (roomId : Nat) : Except SqlErr Ledger :=
  if (l.rows.map (nullRoom roomId)).all single_location_check then
    .ok { l with rows := l.rows.map (nullRoom roomId),
                 roomIds := l.roomIds.filter (fun rm => !(rm == roomId)) }
  else .error .CheckViolation

/-- `DELETE FROM item_instances WHERE id = instId`: the row is removed and
the `ON DELETE SET NULL` cascade nulls `container_id` on the contained rows,
subject to the CHECK constraint. -/
def deleteInstanceRaw (l : Ledger) (instId : Nat) : Except SqlErr Ledger :=
  if ((l.rows.filter (fun r => !(r.id == instId))).map (nullCont instId)).all
      single_location_check then
    .ok { l with rows := (l.rows.filter (fun r => !(r.id == instId))).map (nullCont instId) }
  else .error .CheckViolation

/-!
## Observable states

Every mutation the subsystem performs on item placement, folded over a
history of requests: a failed operation is rolled back and leaves the state
unchanged, so the states reachable by `runOps` are exactly the committed
(observable) states of the ledger.
-/

inductive LedgerOp where
  | insert (row : ItemRow)
  | placeRoom (itemId roomId : Nat)
  | placeChar (itemId charId : Nat)
  | placeCont (itemId contId : Nat)
  | remove (itemId : Nat) (cascade : Bool)
  | deleteChar (charId : Nat)
  | deleteRoom (roomId : Nat)
  | deleteInst (instId : Nat)
  | addRoom (roomId : Nat)
  | addChar (charId : Nat)

def keepOnErr (l : Ledger) : Except ε Ledger → Ledger
  | .ok l' => l'
  | .error _ => l

def runOp (l : Ledger) : LedgerOp → Ledger
  | .insert row => keepOnErr l (insertItem l row)
  | .placeRoom i rm => keepOnErr l (placeInRoom l i rm)
  | .placeChar i c => keepOnErr l (placeOnCharacter l i c)
  | .placeCont i c => keepOnErr l (placeInContainer l i c)
  | .remove i cas => keepOnErr l (removeInstance l i cas)
  | .deleteChar c => keepOnErr l (deleteCharacterRaw l c)
  | .deleteRoom rm => keepOnErr l (deleteRoomRaw l rm)
  | .deleteInst i => keepOnErr l (deleteInstanceRaw l i)
  | .addRoom rm => { l with roomIds := rm :: l.roomIds }
  | .addChar c => { l with charIds := c :: l.charIds }

def runOps (l : Ledger) (ops : List LedgerOp) : Ledger :=
  ops.foldl runOp l

/-- The empty initial store over a fixed catalog of container-capable
templates. -/
def Ledger.init (caps : List Nat) : Ledger :=
  ⟨[], caps, [], []⟩

/-!
## Preservation of the single-location invariant
-/

theorem check_placedInRoom (r : ItemRow) (roomId : Nat) :
    single_location_check (r.placedInRoom roomId) = true := rfl

theorem check_placedOnChar (r : ItemRow) (charId : Nat) :
    single_location_check (r.placedOnChar charId) = true := rfl

theorem check_placedInCont (r : ItemRow) (contId : Nat) :
    single_location_check (r.placedInCont contId) = true := rfl

theorem all_check_map (rows : List ItemRow) (f : ItemRow → ItemRow)
    (h : rows.all single_location_check = true)
    (hf : ∀ r, single_location_check r = true → single_location_check (f r) = true) :
    (rows.map f).all single_location_check = true := by
  simp only [List.all_eq_true] at h ⊢
  intro x hx
  rcases List.mem_map.1 hx with ⟨r, hr, rfl⟩
  exact hf r (h r hr)

theorem all_check_filter (rows : List ItemRow) (p : ItemRow → Bool)
    (h : rows.all single_location_check = true) :
    (rows.filter p).all single_location_check = true := by
  simp only [List.all_eq_true] at h ⊢
  intro x hx
  exact h x (List.mem_filter.1 hx).1

/-- Every committed operation writes only rows passing
`single_location_check`. -/
theorem rowsOk_runOp (l : Ledger) (op : LedgerOp)
    (h : l.rows.all single_location_check = true) :
    (runOp l op).rows.all single_location_check = true := by
  cases op with
  | insert row =>
    simp only [runOp, insertItem]
    split
    · next hok =>
      simp only [keepOnErr, List.all_cons, Bool.and_eq_true]
      refine ⟨?_, h⟩
      simp only [insertOk, Bool.and_eq_true] at hok
      exact hok.1.1.1.1
    · exact h
  | placeRoom i rm =>
    simp only [runOp, placeInRoom]
    cases hf : l.findRow i with
    | none => exact h
    | some row =>
      simp only []
      split
      · exact all_check_map _ _ h fun r hr => by
          split
          · exact check_placedInRoom r rm
          · exact hr
      · exact h
  | placeChar i c =>
    simp only [runOp, placeOnCharacter]
    cases hf : l.findRow i with
    | none => exact h
    | some row =>
      simp only []
      split
      · exact all_check_map _ _ h fun r hr => by
          split
          · exact check_placedOnChar r c
          · exact hr
      · exact h
  | placeCont i c =>
    simp only [runOp, placeInContainer]
    cases hf : l.findRow i with
    | none => exact h
    | some row =>
      cases hg : l.findRow c with
      | none => exact h
      | some cont =>
        simp only []
        split
        · exact h
        · split
          · exact h
          · exact all_check_map _ _ h fun r hr => by
              split
              · exact check_placedInCont r c
              · exact hr
  | remove i cas =>
    simp only [runOp, removeInstance]
    cases hf : l.findRow i with
    | none => exact h
    | some row =>
      simp only []
      split
      · exact h
      · exact all_check_filter _ _ h
  | deleteChar c =>
    simp only [runOp, deleteCharacterRaw]
    split
    · next hall => exact hall
    · exact h
  | deleteRoom rm =>
    simp only [runOp, deleteRoomRaw]
    split
    · next hall => exact hall
    · exact h
  | deleteInst i =>
    simp only [runOp, deleteInstanceRaw]
    split
    · next hall => exact hall
    · exact h
  | addRoom rm => exact h
  | addChar c => exact h

theorem rowsOk_runOps (l : Ledger) (ops : List LedgerOp)
    (h : l.rows.all single_location_check = true) :
    (runOps l ops).rows.all single_location_check = true := by
  induction ops generalizing l with
  | nil => exact h
  | cons op rest ih => exact ih (runOp l op) (rowsOk_runOp l op h)

/-!
## World graph: rooms and exits

`rooms` table (`src/unnamed/part_004` lines 482-493): `id`, `area_id NOT
NULL`, `name`, `description`, `exits jsonb` (an object keyed by direction),
`flags jsonb`, `spawners jsonb`, `coinage integer NOT NULL` (no CHECK
constraint).  The direction enumeration and the exit/door/trap sub-records
follow the admin portal's exit form (`RoomEdit.jsx`) and spec section 3.
-/

inductive Direction where
  | north | northeast | east | southeast | south | southwest | west | northwest | up | down
  deriving DecidableEq

/-- The ten-value direction enumeration, as listed in `RoomEdit.jsx`. -/
def allDirections : List Direction :=
  [.north, .northeast, .east, .southeast, .south, .southwest, .west, .northwest, .up, .down]

/-- The fixed direction-inverse involution of spec section 3:
north↔south, east↔west, northeast↔southwest, northwest↔southeast, up↔down. -/
def Direction.inverseDir : Direction → Direction
  | .north => .south
  | .south => .north
  | .east => .west
  | .west => .east
  | .northeast => .southwest
  | .southwest => .northeast
  | .northwest => .southeast
  | .southeast => .northwest
  | .up => .down
  | .down => .up

structure Door where
  name : String
  is_locked : Bool
  lock_difficulty : Option Int := none
  required_key_id : Option Nat := none
  deriving DecidableEq

structure Trap where
  difficulty : Int
  damage : Int
  damage_type : String
  deriving DecidableEq

/-- One exit edge as stored under its direction key. -/
structure ExitPayload where
  destination_room_id : Nat
  is_hidden : Bool
  door : Option Door := none
  trap : Option Trap := none
  deriving DecidableEq

structure Room where
  id : Nat
  area_id : Nat
  name : String
  description : String
  exits : List (Direction × ExitPayload)
  flags : Json
  spawners : Json
  coinage : Int

structure World where
  rooms : List Room

def World.findRoom (w : World) (rid : Nat) : Option Room :=
  w.rooms.find? (fun r => r.id == rid)

def Room.countDir (r : Room) (d : Direction) : Nat :=
  (r.exits.filter (fun e => e.1 == d)).length

def Room.hasDir (r : Room) (d : Direction) : Bool :=
  r.exits.any (fun e => e.1 == d)

def Room.addExit (r : Room) (d : Direction) (p : ExitPayload) : Room :=
  { r with exits := (d, p) :: r.exits }

def World.insertExit (w : World) (rid : Nat) (d : Direction) (p : ExitPayload) : World :=
  ⟨w.rooms.map fun r => if r.id == rid then r.addExit d p else r⟩

/-- The exit payloads a room exposes in one direction. -/
def World.exitsInDir (w : World) (rid : Nat) (d : Direction) : List ExitPayload :=
  match w.findRoom rid with
  | some r => (r.exits.filter (fun e => e.1 == d)).map (fun e => e.2)
  | none => []

def nodupNat : List Nat → Bool
  | [] => true
  | x :: xs => !xs.contains x && nodupNat xs

/-- At most one exit per direction in this room (the `exits` jsonb object is
keyed by direction, so a direction key holds at most one edge). -/
def Room.dirUnique (r : Room) : Bool :=
  allDirections.all (fun d => r.countDir d ≤ 1)

/-- Distinct room ids and per-room unique direction keys. -/
def World.wellFormed (w : World) : Bool :=
  nodupNat (w.rooms.map (fun r => r.id)) && w.rooms.all Room.dirUnique

/-- Error taxonomy of the Exit Graph Manager (spec section 7). -/
inductive ExitErr where
  | DuplicateDirection
  | UnknownRoom
  | InvalidDoorSpec
  | NotFound
  deriving DecidableEq

/-- A door specification is coherent unless `is_locked` is set without a lock
difficulty value (spec sections 4.1 and 8). -/
def doorSpecOk : Option Door → Bool
  | none => true
  | some d => !d.is_locked || d.lock_difficulty.isSome

/-- Modelled from the spec: the primary insertion of `createExit` of the Exit
Graph Manager (spec section 4.1); the service code is not under `src/`, only
the schema (`rooms.exits` jsonb keyed by direction) and the admin-portal
caller are.  Fails with `DuplicateDirection` if the source already has an
exit in the direction, `UnknownRoom` if source or destination is absent, and
`InvalidDoorSpec` on an incoherent door sub-record. -/
def createExitPrim (w : World) (src : Nat) (dir : Direction) (dst : Nat)
    (hidden : Bool) (door : Option Door) (trap : Option Trap) : Except ExitErr World :=
  match w.findRoom src with
  | none => .error .UnknownRoom
  | some room =>
    if room.hasDir dir then .error .DuplicateDirection
    else if !(w.findRoom dst).isSome then .error .UnknownRoom
    else if !doorSpecOk door then .error .InvalidDoorSpec
    else .ok (w.insertExit src dir ⟨dst, hidden, door, trap⟩)

/-- Modelled from the spec: `createExit` of the Exit Graph Manager (spec
section 4.1); the service code is not under `src/`.  On success with
`createReverse` set it attempts the mirrored insertion in the destination
room under the inverse direction; a reverse failure leaves the primary exit
committed and is reported as a partial-success warning. -/
def createExit (w : World) (src : Nat) (dir : Direction) (dst : Nat)
    (hidden : Bool) (door : Option Door) (trap : Option Trap) (createReverse : Bool) :
    Except ExitErr (World × Option ExitErr) :=
  match createExitPrim w src dir dst hidden door trap with
  | .error e => .error e
  | .ok w1 =>
    if createReverse then
      match createExitPrim w1 dst dir.inverseDir src hidden none none with
      | .error e => .ok (w1, some e)
      | .ok w2 => .ok (w2, none)
    else .ok (w1, none)

/-- The room fields the admin portal's room form submits (`RoomEdit.jsx`
`handleSubmit`: `area_id`, `name`, `description`, `coinage`, `flags`,
`spawners`). -/
structure RoomUpdate where
  area_id : Nat
  name : String
  description : String
  coinage : Int
  flags : Json
  spawners : Json

/-- `PUT /rooms/:id` as issued by `handleSubmit` and accepted by the schema:
the `rooms` table declares `coinage integer NOT NULL` with no CHECK
constraint, and the form's coinage input has no `min` attribute, so any
integer supplied is committed verbatim. -/
def updateRoom (w : World) (rid : Nat) (u : RoomUpdate) : World :=
  ⟨w.rooms.map fun r =>
    if r.id == rid then
      { r with area_id := u.area_id, name := u.name, description := u.description,
               coinage := u.coinage, flags := u.flags, spawners := u.spawners }
    else r⟩

/-!
## Admin-portal create-exit request (`RoomEdit.jsx`)

The `newExit` React state (lines 11-24), `buildExitDetails` (lines 44-70)
and the request body `handleCreateExit` posts (line 103:
`api.post(url, newExit, exitData)` — axios sends the second argument as the
body; the built `exitData` occupies the config slot).
-/

/-- The `newExit` form state of `RoomEdit.jsx`.  `required_key_id` is `null`
or a nonzero integer (the input handler maps `parseInt(v) || null`). -/
structure NewExitForm where
  direction : String
  destination_room_id : Int
  is_hidden : Bool
  create_reverse : Bool
  has_door : Bool
  door_name : String
  is_locked : Bool
  lock_difficulty : Int
  required_key_id : Option Int
  is_trapped : Bool
  trap_difficulty : Int
  trap_damage : Int

/-- `buildExitDetails` of `RoomEdit.jsx`: the nested `details` object with an
optional `door` sub-object (`name` defaulting to `"door"` on the falsy empty
string, `is_locked`, and — only when locked — `lock_difficulty` and a truthy
`required_key_id`) and an optional `trap` sub-object (`difficulty`, `damage`,
`damage_type: "physical"`). -/
def buildExitDetails (f : NewExitForm) : Json :=
  let doorFields :=
    if f.has_door then
      let base := [("name", Json.str (if f.door_name == "" then "door" else f.door_name)),
                   ("is_locked", Json.bool f.is_locked)]
      let withDiff :=
        if f.is_locked then base ++ [("lock_difficulty", Json.num f.lock_difficulty)]
        else base
      let withKey :=
        if f.is_locked then
          match f.required_key_id with
          | some k => if k != 0 then withDiff ++ [("required_key_id", Json.num k)] else withDiff
          | none => withDiff
        else withDiff
      [("door", Json.obj withKey)]
    else []
  let trapFields :=
    if f.is_trapped then
      [("trap", Json.obj [("difficulty", Json.num f.trap_difficulty),
                          ("damage", Json.num f.trap_damage),
                          ("damage_type", Json.str "physical")])]
    else []
  Json.obj (doorFields ++ trapFields)

/-- The `exitData` value `handleCreateExit` builds (lines 96-102): direction,
destination, hidden and reverse flags, and the nested `details`. -/
def exitDataJson (f : NewExitForm) : Json :=
  Json.obj [("direction", .str f.direction),
            ("destination_room_id", .num f.destination_room_id),
            ("is_hidden", .bool f.is_hidden),
            ("create_reverse", .bool f.create_reverse),
            ("details", buildExitDetails f)]

/-- JSON serialization of the whole `newExit` form state, flat fields in
declaration order. -/
def newExitJson (f : NewExitForm) : Json :=
  Json.obj [("direction", .str f.direction),
            ("destination_room_id", .num f.destination_room_id),
            ("is_hidden", .bool f.is_hidden),
            ("create_reverse", .bool f.create_reverse),
            ("has_door", .bool f.has_door),
            ("door_name", .str f.door_name),
            ("is_locked", .bool f.is_locked),
            ("lock_difficulty", .num f.lock_difficulty),
            ("required_key_id",
              match f.required_key_id with
              | some k => .num k
              | none => .null),
            ("is_trapped", .bool f.is_trapped),
            ("trap_difficulty", .num f.trap_difficulty),
            ("trap_damage", .num f.trap_damage)]

/-- The body `handleCreateExit` actually sends: `api.post` receives `newExit`
as its data argument (`RoomEdit.jsx` line 103), so the serialized flat form
state — not `exitData` — is the request body. -/
def handleCreateExitBody (f : NewExitForm) : Json :=
  newExitJson f

/-!
## Lemmas about the exit graph
-/

theorem addExit_id (r : Room) (d : Direction) (p : ExitPayload) :
    (r.addExit d p).id = r.id := rfl

theorem find?_map_comm (rooms : List Room) (f : Room → Room)
    (hid : ∀ r, (f r).id = r.id) (x : Nat) :
    (rooms.map f).find? (fun r => r.id == x) = (rooms.find? (fun r => r.id == x)).map f := by
  induction rooms with
  | nil => rfl
  | cons r rest ih =>
    simp only [List.map_cons, List.find?]
    rw [hid r]
    cases hr : (r.id == x)
    · simpa using ih
    · rfl

theorem findRoom_insertExit (w : World) (rid : Nat) (d : Direction) (p : ExitPayload) (x : Nat) :
    (w.insertExit rid d p).findRoom x =
      (w.findRoom x).map (fun r => if r.id == rid then r.addExit d p else r) := by
  unfold World.insertExit World.findRoom
  refine find?_map_comm _ _ (fun r => ?_) x
  by_cases h : (r.id == rid) = true <;> simp [h, addExit_id]

theorem findRoom_id (w : World) (x : Nat) (r : Room) (h : w.findRoom x = some r) :
    (r.id == x) = true := by
  unfold World.findRoom at h
  have hx := List.find?_some h
  exact hx

theorem findRoom_mem (w : World) (x : Nat) (r : Room) (h : w.findRoom x = some r) :
    r ∈ w.rooms := by
  unfold World.findRoom at h
  exact List.mem_of_find?_eq_some h

theorem countDir_addExit (r : Room) (d d' : Direction) (p : ExitPayload) :
    (r.addExit d p).countDir d' = (if d == d' then 1 else 0) + r.countDir d' := by
  unfold Room.addExit Room.countDir
  simp only [List.filter_cons]
  split <;> simp_all [Nat.add_comm]

theorem hasDir_false_iff (r : Room) (d : Direction) :
    r.hasDir d = false ↔ r.countDir d = 0 := by
  unfold Room.hasDir Room.countDir
  constructor
  · intro h
    simp only [List.length_eq_zero, List.filter_eq_nil_iff]
    intro e he
    have := (List.any_eq_false).1 h e he
    simpa using this
  · intro h
    simp only [List.length_eq_zero, List.filter_eq_nil_iff] at h
    refine List.any_eq_false.2 fun e he => ?_
    simpa using h e he

theorem hasDir_addExit_self (r : Room) (d : Direction) (p : ExitPayload) :
    (r.addExit d p).hasDir d = true := by
  unfold Room.addExit Room.hasDir
  simp

theorem hasDir_addExit_mono (r : Room) (d d' : Direction) (p : ExitPayload)
    (h : r.hasDir d' = true) : (r.addExit d p).hasDir d' = true := by
  unfold Room.hasDir at h
  unfold Room.addExit Room.hasDir
  simp only [List.any_cons, Bool.or_eq_true]
  exact Or.inr h

theorem mem_allDirections (d : Direction) : d ∈ allDirections := by
  cases d <;> simp [allDirections]

/-- With pairwise-distinct room ids, a member with the sought id is the
`find?` result. -/
theorem find?_eq_of_mem_nodup (rooms : List Room) (rid : Nat) (r : Room)
    (hnd : nodupNat (rooms.map (fun s => s.id)) = true)
    (hmem : r ∈ rooms) (hid : (r.id == rid) = true) :
    rooms.find? (fun s => s.id == rid) = some r := by
  induction rooms with
  | nil => cases hmem
  | cons s rest ih =>
    simp only [List.map_cons, nodupNat, Bool.and_eq_true] at hnd
    rcases List.mem_cons.1 hmem with rfl | hmem'
    · simp only [List.find?, hid]
    · simp only [List.find?]
      cases hs : (s.id == rid)
      · exact ih hnd.2 hmem'
      · exfalso
        have h1 : s.id = rid := by simpa using hs
        have h2 : r.id = rid := by simpa using hid
        have hin : s.id ∈ rest.map (fun t => t.id) := by
          rw [h1, ← h2]
          exact List.mem_map_of_mem _ hmem'
        have hc := hnd.1
        simp only [Bool.not_eq_true'] at hc
        rw [List.contains_eq_any_beq] at hc
        have := List.any_eq_false.1 hc _ hin
        simp at this

/-- Does some room expose an exit in the given direction? -/
def World.hasRoomExit (w : World) (rid : Nat) (d : Direction) : Bool :=
  match w.findRoom rid with
  | some r => r.hasDir d
  | none => false

/-- Characterization of a successful primary insertion. -/
theorem createExitPrim_ok (w : World) (src : Nat) (dir : Direction) (dst : Nat)
    (hidden : Bool) (door : Option Door) (trap : Option Trap) (w' : World)
    (h : createExitPrim w src dir dst hidden door trap = .ok w') :
    ∃ room, w.findRoom src = some room ∧ room.hasDir dir = false ∧
      (w.findRoom dst).isSome = true ∧ doorSpecOk door = true ∧
      w' = w.insertExit src dir ⟨dst, hidden, door, trap⟩ := by
  unfold createExitPrim at h
  split at h
  · exact Except.noConfusion h
  · next room hf =>
    split at h
    · exact Except.noConfusion h
    · next hdup =>
      split at h
      · exact Except.noConfusion h
      · next hdst =>
        split at h
        · exact Except.noConfusion h
        · next hdoor =>
          injection h with hw
          refine ⟨room, hf, by simpa using hdup, ?_, by simpa using hdoor, hw.symm⟩
          have hd : ¬ w.findRoom dst = none := by simpa using hdst
          rw [Option.isSome_iff_ne_none]
          exact hd

theorem hasRoomExit_insertExit_self (w : World) (rid : Nat) (d : Direction) (p : ExitPayload)
    (room : Room) (hf : w.findRoom rid = some room) :
    (w.insertExit rid d p).hasRoomExit rid d = true := by
  unfold World.hasRoomExit
  rw [findRoom_insertExit, hf]
  simp only [Option.map_some', findRoom_id w rid room hf, if_true]
  exact hasDir_addExit_self room d p

theorem hasRoomExit_insertExit_mono (w : World) (rid x : Nat) (d d' : Direction) (p : ExitPayload)
    (h : w.hasRoomExit x d' = true) :
    (w.insertExit rid d p).hasRoomExit x d' = true := by
  unfold World.hasRoomExit at h ⊢
  rw [findRoom_insertExit]
  cases hf : w.findRoom x with
  | none => rw [hf] at h; exact absurd h (by simp)
  | some room =>
    rw [hf] at h
    simp only [Option.map_some']
    split
    · exact hasDir_addExit_mono room d d' p h
    · exact h

theorem wellFormed_insertExit (w : World) (rid : Nat) (d : Direction) (p : ExitPayload)
    (room : Room) (hw : w.wellFormed = true)
    (hf : w.findRoom rid = some room) (hnd : room.hasDir d = false) :
    (w.insertExit rid d p).wellFormed = true := by
  unfold World.wellFormed at hw ⊢
  rw [Bool.and_eq_true] at hw
  obtain ⟨hids, hrooms⟩ := hw
  rw [Bool.and_eq_true]
  have hmapids : (w.insertExit rid d p).rooms.map (fun r => r.id) =
      w.rooms.map (fun r => r.id) := by
    simp only [World.insertExit]
    rw [List.map_map]
    refine List.map_congr_left fun r _ => ?_
    simp only [Function.comp_apply]
    by_cases hr : (r.id == rid) = true <;> simp [hr, addExit_id]
  refine ⟨by rw [hmapids]; exact hids, ?_⟩
  simp only [World.insertExit, List.all_eq_true] at hrooms ⊢
  intro x hx
  rcases List.mem_map.1 hx with ⟨r, hrmem, rfl⟩
  by_cases hcase : (r.id == rid) = true
  · have hfind : w.rooms.find? (fun s => s.id == rid) = some r :=
      find?_eq_of_mem_nodup w.rooms rid r hids hrmem hcase
    have hfind' : w.rooms.find? (fun s => s.id == rid) = some room := hf
    have hreq : r = room := by
      rw [hfind] at hfind'
      exact Option.some.inj hfind'
    subst hreq
    simp only [hcase, if_true]
    unfold Room.dirUnique
    simp only [List.all_eq_true, decide_eq_true_eq]
    intro d' _
    rw [countDir_addExit]
    by_cases hdd : (d == d') = true
    · have hdeq : d = d' := by simpa using hdd
      have hzero : r.countDir d' = 0 := by
        rw [← hdeq]
        exact (hasDir_false_iff r d).1 hnd
      rw [if_pos hdd, hzero]
    · have hle := hrooms r hrmem
      unfold Room.dirUnique at hle
      simp only [List.all_eq_true, decide_eq_true_eq] at hle
      have h2 := hle d' (mem_allDirections d')
      rw [if_neg hdd]
      omega
  · simp only [hcase, if_false]
    exact hrooms r hrmem

/-!
## Helper facts about rows satisfying the CHECK constraint
-/

theorem check_owner_some (r : ItemRow) (c : Nat)
    (h : single_location_check r = true) (ho : r.owner_char_id = some c) :
    r.room_id = none ∧ r.container_id = none := by
  unfold single_location_check at h
  rw [ho] at h
  cases hr : r.room_id <;> cases hc : r.container_id <;> simp [hr, hc] at h <;> simp

theorem check_room_some (r : ItemRow) (rm : Nat)
    (h : single_location_check r = true) (ho : r.room_id = some rm) :
    r.owner_char_id = none ∧ r.container_id = none := by
  unfold single_location_check at h
  rw [ho] at h
  cases hr : r.owner_char_id <;> cases hc : r.container_id <;> simp [hr, hc] at h <;> simp

theorem check_container_some (r : ItemRow) (i : Nat)
    (h : single_location_check r = true) (ho : r.container_id = some i) :
    r.owner_char_id = none ∧ r.room_id = none := by
  unfold single_location_check at h
  rw [ho] at h
  cases hr : r.owner_char_id <;> cases hc : r.room_id <;> simp [hr, hc] at h <;> simp

/-!
## Claim C1
-/

/-- C1: For every item instance, at every observable point in time (any
committed state reachable by running the modelled operations against the
empty store), exactly one of the three placement fields (owner character,
room, container) is populated — never zero, never two. -/
theorem c1_single_location_invariant (caps : List Nat) (ops : List LedgerOp) (r : ItemRow)
    (hr : r ∈ (runOps (Ledger.init caps) ops).rows) :
    countPopulated r = 1 := by
  have h := rowsOk_runOps (Ledger.init caps) ops rfl
  rw [List.all_eq_true] at h
  exact (single_location_check_iff r).1 (h r hr)

/-- Ten-operation history exercising C1 at a concrete reachable state. -/
theorem c1_single_location_invariant_witness :
    countPopulated ⟨1, 7, none, some 5, none, 100, []⟩ = 1 :=
  c1_single_location_invariant [] [.addRoom 5, .insert ⟨1, 7, none, some 5, none, 100, []⟩]
    ⟨1, 7, none, some 5, none, 100, []⟩ (by decide)

/-!
## Claim C4
-/

/-- C4: a `placeInContainer(C, X)` call whose target `X` is `C` itself or is
transitively contained in `C` (the walk from `X` up the container references
reaches `C`) fails with `CyclicContainment`, and the failed call leaves the
ledger — hence the placement of both `C` and `X` — unchanged. -/
theorem c4_cyclic_containment (l : Ledger) (itemId contId : Nat)
    (hitem : (l.findRow itemId).isSome = true)
    (hcap : l.capableAt contId = true)
    (hreach : reachesVia l.rows l.rows.length contId itemId = true) :
    applied l (placeInContainer l itemId contId) = (l, some .CyclicContainment) := by
  unfold placeInContainer
  cases hi : l.findRow itemId with
  | none => rw [hi] at hitem; simp at hitem
  | some item =>
    cases hc : l.findRow contId with
    | none =>
      unfold Ledger.capableAt at hcap
      rw [hc] at hcap
      simp at hcap
    | some cont =>
      have hcap' : l.containerCapable.contains cont.template_id = true := by
        unfold Ledger.capableAt at hcap
        rw [hc] at hcap
        exact hcap
      have hmem : cont.template_id ∈ l.containerCapable := by simpa using hcap'
      simp [hmem, hreach, applied]

def c4ExampleLedger : Ledger :=
  ⟨[⟨1, 10, none, some 5, none, 100, []⟩, ⟨2, 10, none, none, some 1, 100, []⟩],
   [10], [5], []⟩

/-- C4 at a concrete ledger: box 2 sits inside box 1; putting 1 into 2 is a
cycle. -/
theorem c4_cyclic_containment_witness :
    applied c4ExampleLedger (placeInContainer c4ExampleLedger 1 2) =
      (c4ExampleLedger, some .CyclicContainment) :=
  c4_cyclic_containment c4ExampleLedger 1 2 (by decide) (by decide) (by decide)

/-!
## Claim C5
-/

/-- C5: `removeInstance` on an instance that contains at least one other
instance fails with `ContainerNotEmpty` without the cascade flag, deleting
nothing; with the cascade flag it deletes the instance together with every
directly or transitively contained instance (stated as: an arbitrary row `r`
survives iff it is neither the instance nor transitively contained in it). -/
theorem c5_remove_instance (l : Ledger) (itemId : Nat) (r : ItemRow)
    (hitem : (l.findRow itemId).isSome = true) :
    ((childRows l.rows itemId).isEmpty = false →
      applied l (removeInstance l itemId false) = (l, some .ContainerNotEmpty)) ∧
    (applied l (removeInstance l itemId true)).2 = none ∧
    (r ∈ (applied l (removeInstance l itemId true)).1.rows ↔
      (r ∈ l.rows ∧ ¬r.id = itemId ∧
        strictlyContained l.rows l.rows.length r.id itemId = false)) := by
  unfold removeInstance
  cases hi : l.findRow itemId with
  | none => rw [hi] at hitem; simp at hitem
  | some item =>
    refine ⟨fun hne => ?_, ?_, ?_⟩
    · simp [hne, applied]
    · simp [applied]
    · simp only [Bool.not_false, Bool.false_and, Bool.not_true, if_neg]
      simp [applied, List.mem_filter]

def c5ExampleLedger : Ledger :=
  ⟨[⟨1, 10, none, some 5, none, 100, []⟩,
    ⟨2, 20, none, none, some 1, 100, []⟩,
    ⟨3, 20, none, none, some 2, 100, []⟩],
   [10, 20], [5], []⟩

/-- C5 at a concrete ledger: box 1 holds 2, which holds 3; the cascade
deletes all three and the non-cascade delete is refused. -/
theorem c5_remove_instance_witness :
    ((childRows c5ExampleLedger.rows 1).isEmpty = false →
      applied c5ExampleLedger (removeInstance c5ExampleLedger 1 false) =
        (c5ExampleLedger, some .ContainerNotEmpty)) ∧
    (applied c5ExampleLedger (removeInstance c5ExampleLedger 1 true)).2 = none ∧
    ((⟨3, 20, none, none, some 2, 100, []⟩ : ItemRow) ∈
        (applied c5ExampleLedger (removeInstance c5ExampleLedger 1 true)).1.rows ↔
      ((⟨3, 20, none, none, some 2, 100, []⟩ : ItemRow) ∈ c5ExampleLedger.rows ∧
        ¬(⟨3, 20, none, none, some 2, 100, []⟩ : ItemRow).id = 1 ∧
        strictlyContained c5ExampleLedger.rows c5ExampleLedger.rows.length
          (⟨3, 20, none, none, some 2, 100, []⟩ : ItemRow).id 1 = false)) :=
  c5_remove_instance c5ExampleLedger 1 ⟨3, 20, none, none, some 2, 100, []⟩ (by decide)

/-!
## Claim C10
-/

/-- C10: because the placement foreign keys are `ON DELETE SET NULL` while
`single_location_check` forbids all-null placement, deleting a character,
room, or container instance that still holds an item instance is rejected by
the store (the cascaded `SET NULL` update violates the CHECK), and any raw
delete that does commit again satisfies the CHECK on every row — so no
committed state contains an item instance with zero populated placement
fields. -/
theorem c10_delete_set_null (l : Ledger) (eid : Nat) (r : ItemRow) (l' : Ledger)
    (hinv : l.rows.all single_location_check = true)
    (hmem : r ∈ l.rows) :
    (r.owner_char_id = some eid → deleteCharacterRaw l eid = .error .CheckViolation) ∧
    (r.room_id = some eid → deleteRoomRaw l eid = .error .CheckViolation) ∧
    (r.container_id = some eid → ¬r.id = eid →
      deleteInstanceRaw l eid = .error .CheckViolation) ∧
    (deleteCharacterRaw l eid = .ok l' → l'.rows.all single_location_check = true) ∧
    (deleteRoomRaw l eid = .ok l' → l'.rows.all single_location_check = true) ∧
    (deleteInstanceRaw l eid = .ok l' → l'.rows.all single_location_check = true) := by
  have hcheck := List.all_eq_true.1 hinv r hmem
  refine ⟨?_, ?_, ?_, ?_, ?_, ?_⟩
  · intro ho
    obtain ⟨hrm, hcn⟩ := check_owner_some r eid hcheck ho
    have hbad : single_location_check (nullOwner eid r) = false := by
      simp [nullOwner, ho, single_location_check, hrm, hcn]
    have hfalse : ¬((l.rows.map (nullOwner eid)).all single_location_check = true) := by
      intro hall
      have hx := List.all_eq_true.1 hall (nullOwner eid r) (List.mem_map_of_mem _ hmem)
      rw [hbad] at hx
      exact Bool.false_ne_true hx
    unfold deleteCharacterRaw
    rw [if_neg hfalse]
  · intro ho
    obtain ⟨hoc, hcn⟩ := check_room_some r eid hcheck ho
    have hbad : single_location_check (nullRoom eid r) = false := by
      simp [nullRoom, ho, single_location_check, hoc, hcn]
    have hfalse : ¬((l.rows.map (nullRoom eid)).all single_location_check = true) := by
      intro hall
      have hx := List.all_eq_true.1 hall (nullRoom eid r) (List.mem_map_of_mem _ hmem)
      rw [hbad] at hx
      exact Bool.false_ne_true hx
    unfold deleteRoomRaw
    rw [if_neg hfalse]
  · intro ho hne
    obtain ⟨hoc, hrm⟩ := check_container_some r eid hcheck ho
    have hbad : single_location_check (nullCont eid r) = false := by
      simp [nullCont, ho, single_location_check, hoc, hrm]
    have hmem' : r ∈ l.rows.filter (fun s => !(s.id == eid)) := by
      rw [List.mem_filter]
      exact ⟨hmem, by simpa using hne⟩
    have hfalse :
        ¬(((l.rows.filter (fun s => !(s.id == eid))).map (nullCont eid)).all
            single_location_check = true) := by
      intro hall
      have hx := List.all_eq_true.1 hall (nullCont eid r) (List.mem_map_of_mem _ hmem')
      rw [hbad] at hx
      exact Bool.false_ne_true hx
    unfold deleteInstanceRaw
    rw [if_neg hfalse]
  · intro hok
    unfold deleteCharacterRaw at hok
    split at hok
    · next hall =>
      injection hok with heq
      rw [← heq]
      exact hall
    · exact Except.noConfusion hok
  · intro hok
    unfold deleteRoomRaw at hok
    split at hok
    · next hall =>
      injection hok with heq
      rw [← heq]
      exact hall
    · exact Except.noConfusion hok
  · intro hok
    unfold deleteInstanceRaw at hok
    split at hok
    · next hall =>
      injection hok with heq
      rw [← heq]
      exact hall
    · exact Except.noConfusion hok

def c10ExampleLedger : Ledger :=
  ⟨[⟨1, 10, some 9, none, none, 100, []⟩,
    ⟨2, 10, none, some 5, none, 100, []⟩],
   [10], [5], [9]⟩

/-- C10 at a concrete ledger: character 9 carries item 1, so deleting
character 9 is rejected by the store. -/
theorem c10_delete_set_null_witness :
    ((⟨1, 10, some 9, none, none, 100, []⟩ : ItemRow).owner_char_id = some 9 →
      deleteCharacterRaw c10ExampleLedger 9 = .error .CheckViolation) ∧
    ((⟨1, 10, some 9, none, none, 100, []⟩ : ItemRow).room_id = some 9 →
      deleteRoomRaw c10ExampleLedger 9 = .error .CheckViolation) ∧
    ((⟨1, 10, some 9, none, none, 100, []⟩ : ItemRow).container_id = some 9 →
      ¬(⟨1, 10, some 9, none, none, 100, []⟩ : ItemRow).id = 9 →
      deleteInstanceRaw c10ExampleLedger 9 = .error .CheckViolation) ∧
    (deleteCharacterRaw c10ExampleLedger 9 = .ok c10ExampleLedger →
      c10ExampleLedger.rows.all single_location_check = true) ∧
    (deleteRoomRaw c10ExampleLedger 9 = .ok c10ExampleLedger →
      c10ExampleLedger.rows.all single_location_check = true) ∧
    (deleteInstanceRaw c10ExampleLedger 9 = .ok c10ExampleLedger →
      c10ExampleLedger.rows.all single_location_check = true) :=
  c10_delete_set_null c10ExampleLedger 9 ⟨1, 10, some 9, none, none, 100, []⟩
    c10ExampleLedger (by decide) (by decide)

/-!
## Claims about the exit graph
-/

theorem inverseDir_ne_self (d : Direction) : (d == d.inverseDir) = false := by
  cases d <;> rfl

/-- A room already exposing an exit in a direction refuses another one. -/
theorem createExit_dup (w : World) (src : Nat) (dir : Direction)
    (h : w.hasRoomExit src dir = true) (dst : Nat) (hidden : Bool)
    (door : Option Door) (trap : Option Trap) (rev : Bool) :
    createExit w src dir dst hidden door trap rev = .error .DuplicateDirection := by
  unfold createExit createExitPrim
  unfold World.hasRoomExit at h
  cases hf : w.findRoom src with
  | none => rw [hf] at h; simp at h
  | some room =>
    rw [hf] at h
    have h2 : room.hasDir dir = true := h
    simp [h2]

/-- C2: for every room `R` and direction `D`, after a `createExit(R, D, …)`
call succeeds, a second `createExit(R, D, …)` call — any destination, flags
and sub-records — fails with `DuplicateDirection`; moreover a committed
`createExit` preserves the at-most-one-exit-per-direction shape of a
well-formed world, so the bound holds at all times. -/
theorem c2_duplicate_direction (w : World) (src : Nat) (dir : Direction) (dst : Nat)
    (hidden : Bool) (door : Option Door) (trap : Option Trap) (rev : Bool)
    (res : World × Option ExitErr)
    (hok : createExit w src dir dst hidden door trap rev = .ok res)
    (dst2 : Nat) (hidden2 : Bool) (door2 : Option Door) (trap2 : Option Trap) (rev2 : Bool) :
    createExit res.1 src dir dst2 hidden2 door2 trap2 rev2 = .error .DuplicateDirection ∧
    (w.wellFormed = true → res.1.wellFormed = true) := by
  unfold createExit at hok
  cases hprim : createExitPrim w src dir dst hidden door trap with
  | error e => rw [hprim] at hok; exact Except.noConfusion hok
  | ok w1 =>
    rw [hprim] at hok
    obtain ⟨room, hf, hnd, hdst, hdoor, hw1⟩ :=
      createExitPrim_ok w src dir dst hidden door trap w1 hprim
    have hw1exit : w1.hasRoomExit src dir = true := by
      rw [hw1]
      exact hasRoomExit_insertExit_self w src dir _ room hf
    have hw1wf : w.wellFormed = true → w1.wellFormed = true := fun hwf => by
      rw [hw1]
      exact wellFormed_insertExit w src dir _ room hwf hf hnd
    cases rev with
    | false =>
      simp only [Bool.false_eq_true, if_false] at hok
      injection hok with h
      subst h
      exact ⟨createExit_dup w1 src dir hw1exit dst2 hidden2 door2 trap2 rev2, hw1wf⟩
    | true =>
      simp only [if_pos] at hok
      cases hrev : createExitPrim w1 dst dir.inverseDir src hidden none none with
      | error e2 =>
        rw [hrev] at hok
        injection hok with h
        subst h
        exact ⟨createExit_dup w1 src dir hw1exit dst2 hidden2 door2 trap2 rev2, hw1wf⟩
      | ok w2 =>
        rw [hrev] at hok
        injection hok with h
        subst h
        obtain ⟨room2, hf2, hnd2, hdst2, hdoor2, hw2⟩ :=
          createExitPrim_ok w1 dst dir.inverseDir src hidden none none w2 hrev
        have hw2exit : w2.hasRoomExit src dir = true := by
          rw [hw2]
          exact hasRoomExit_insertExit_mono w1 dst src dir.inverseDir dir _ hw1exit
        refine ⟨createExit_dup w2 src dir hw2exit dst2 hidden2 door2 trap2 rev2, fun hwf => ?_⟩
        rw [hw2]
        exact wellFormed_insertExit w1 dst dir.inverseDir _ room2 (hw1wf hwf) hf2 hnd2

def c2ExampleWorld : World :=
  ⟨[⟨1, 1, "Temple", "t", [], .arr [], .obj [], 0⟩,
    ⟨2, 1, "Square", "s", [], .arr [], .obj [], 0⟩]⟩

def c2ResultWorld : World :=
  ⟨[⟨1, 1, "Temple", "t", [(.north, ⟨2, false, none, none⟩)], .arr [], .obj [], 0⟩,
    ⟨2, 1, "Square", "s", [(.south, ⟨1, false, none, none⟩)], .arr [], .obj [], 0⟩]⟩

/-- C2 at a concrete world: creating north from room 1 twice. -/
theorem c2_duplicate_direction_witness :
    createExit c2ResultWorld 1 .north 3 false none none false = .error .DuplicateDirection ∧
    (c2ExampleWorld.wellFormed = true → c2ResultWorld.wellFormed = true) :=
  c2_duplicate_direction c2ExampleWorld 1 .north 2 false none none true
    (c2ResultWorld, none) (by rfl) 3 false none none false

/-- A primary insertion with source present, direction free, destination
present and a coherent door commits. -/
theorem createExitPrim_eq_ok (w : World) (src : Nat) (dir : Direction) (dst : Nat)
    (hidden : Bool) (door : Option Door) (trap : Option Trap) (room : Room)
    (hf : w.findRoom src = some room) (hnd : room.hasDir dir = false)
    (hdst : (w.findRoom dst).isSome = true) (hdoor : doorSpecOk door = true) :
    createExitPrim w src dir dst hidden door trap =
      .ok (w.insertExit src dir ⟨dst, hidden, door, trap⟩) := by
  unfold createExitPrim
  simp [hf, hnd, hdst, hdoor]

theorem filter_dir_addExit (r : Room) (d : Direction) (p : ExitPayload)
    (h : r.countDir d = 0) :
    (r.addExit d p).exits.filter (fun e => e.1 == d) = [(d, p)] := by
  unfold Room.addExit
  simp only [List.filter_cons]
  rw [if_pos (by simp)]
  unfold Room.countDir at h
  rw [List.length_eq_zero] at h
  rw [h]

/-- C3: a successful `createExit` with `createReverse = true` whose
destination had no exit in the inverse direction leaves the destination with
exactly one exit in that inverse direction, and its destination is the
source room (and no partial-success warning is reported). -/
theorem c3_reverse_exit (w : World) (src : Nat) (dir : Direction) (dst : Nat)
    (hidden : Bool) (door : Option Door) (trap : Option Trap)
    (res : World × Option ExitErr)
    (hok : createExit w src dir dst hidden door trap true = .ok res)
    (hno : w.exitsInDir dst dir.inverseDir = []) :
    res.2 = none ∧
    (res.1.exitsInDir dst dir.inverseDir).map (fun p => p.destination_room_id) = [src] := by
  unfold createExit at hok
  cases hprim : createExitPrim w src dir dst hidden door trap with
  | error e => rw [hprim] at hok; exact Except.noConfusion hok
  | ok w1 =>
    rw [hprim] at hok
    simp only [if_pos] at hok
    obtain ⟨room, hf, hnd, hdst, hdoor, hw1⟩ :=
      createExitPrim_ok w src dir dst hidden door trap w1 hprim
    obtain ⟨roomD, hfd⟩ := Option.isSome_iff_exists.1 hdst
    have hcount : roomD.countDir dir.inverseDir = 0 := by
      unfold World.exitsInDir at hno
      rw [hfd] at hno
      unfold Room.countDir
      rw [List.map_eq_nil] at hno
      rw [hno]
      rfl
    have hfd1 : w1.findRoom dst =
        some (if roomD.id == src then roomD.addExit dir ⟨dst, hidden, door, trap⟩ else roomD) := by
      rw [hw1, findRoom_insertExit, hfd]
      rfl
    have hzero :
        (if roomD.id == src then roomD.addExit dir ⟨dst, hidden, door, trap⟩
          else roomD).countDir dir.inverseDir = 0 := by
      by_cases hc : (roomD.id == src) = true
      · rw [if_pos hc, countDir_addExit, inverseDir_ne_self]
        simpa using hcount
      · rw [if_neg hc]
        exact hcount
    have hnd1 :
        (if roomD.id == src then roomD.addExit dir ⟨dst, hidden, door, trap⟩ else roomD).hasDir
          dir.inverseDir = false := by
      rw [hasDir_false_iff]
      exact hzero
    have hsrc1 : (w1.findRoom src).isSome = true := by
      rw [hw1, findRoom_insertExit, hf]
      simp
    have hrev := createExitPrim_eq_ok w1 dst dir.inverseDir src hidden none none
      (if roomD.id == src then roomD.addExit dir ⟨dst, hidden, door, trap⟩ else roomD)
      hfd1 hnd1 hsrc1 rfl
    simp only [hrev] at hok
    have hres : (w1.insertExit dst dir.inverseDir ⟨src, hidden, none, none⟩,
        (none : Option ExitErr)) = res := by
      injection hok
    subst hres
    refine ⟨rfl, ?_⟩
    show ((w1.insertExit dst dir.inverseDir ⟨src, hidden, none, none⟩).exitsInDir dst
      dir.inverseDir).map (fun p => p.destination_room_id) = [src]
    unfold World.exitsInDir
    rw [findRoom_insertExit, hfd1]
    simp only [Option.map_some']
    have hid :
        ((if roomD.id == src then roomD.addExit dir ⟨dst, hidden, door, trap⟩ else roomD).id
          == dst) = true := by
      by_cases hc : (roomD.id == src) = true
      · rw [if_pos hc, addExit_id]
        exact findRoom_id w dst roomD hfd
      · rw [if_neg hc]
        exact findRoom_id w dst roomD hfd
    rw [if_pos hid]
    rw [filter_dir_addExit _ _ _ hzero]
    rfl

def c3ExampleWorld : World :=
  ⟨[⟨1, 2, "Gate", "g", [], .arr [], .obj [], 0⟩,
    ⟨2, 2, "Yard", "y", [], .arr [], .obj [], 0⟩]⟩

def c3ResultWorld : World :=
  ⟨[⟨1, 2, "Gate", "g", [(.north, ⟨2, false, none, none⟩)], .arr [], .obj [], 0⟩,
    ⟨2, 2, "Yard", "y", [(.south, ⟨1, false, none, none⟩)], .arr [], .obj [], 0⟩]⟩

/-- C3 at a concrete world: the reverse south exit of room 2 points to 1. -/
theorem c3_reverse_exit_witness :
    ((c3ResultWorld, (none : Option ExitErr)).2 = none) ∧
    (((c3ResultWorld, (none : Option ExitErr)).1.exitsInDir 2
        Direction.north.inverseDir).map (fun p => p.destination_room_id) = [1]) :=
  c3_reverse_exit c3ExampleWorld 1 .north 2 false none none
    (c3ResultWorld, none) (by rfl) (by rfl)

/-- C6: when the primary insertion of a `createExit` with
`createReverse = true` succeeds but the reverse insertion fails (for example
the inverse direction is already occupied at the destination), the call
returns the world with the primary exit committed — the source room exposes
the new exit — and the reverse failure is reported as a partial-success
warning, not rolled back. -/
theorem c6_best_effort_reverse (w w1 : World) (src : Nat) (dir : Direction) (dst : Nat)
    (hidden : Bool) (door : Option Door) (trap : Option Trap) (e : ExitErr)
    (hprim : createExitPrim w src dir dst hidden door trap = .ok w1)
    (hrev : createExitPrim w1 dst dir.inverseDir src hidden none none = .error e) :
    createExit w src dir dst hidden door trap true = .ok (w1, some e) ∧
    w1.hasRoomExit src dir = true := by
  constructor
  · unfold createExit
    rw [hprim]
    simp [hrev]
  · obtain ⟨room, hf, hnd, hdst, hdoor, hw1⟩ :=
      createExitPrim_ok w src dir dst hidden door trap w1 hprim
    rw [hw1]
    exact hasRoomExit_insertExit_self w src dir _ room hf

def c6ExampleWorld : World :=
  ⟨[⟨1, 3, "Hall", "h", [], .arr [], .obj [], 0⟩,
    ⟨2, 3, "Cellar", "c", [(.south, ⟨7, false, none, none⟩)], .arr [], .obj [], 0⟩]⟩

def c6PrimaryWorld : World :=
  ⟨[⟨1, 3, "Hall", "h", [(.north, ⟨2, false, none, none⟩)], .arr [], .obj [], 0⟩,
    ⟨2, 3, "Cellar", "c", [(.south, ⟨7, false, none, none⟩)], .arr [], .obj [], 0⟩]⟩

/-- C6 at a concrete world: room 2 already has a south exit, so the reverse
insertion collides while the primary north exit of room 1 commits. -/
theorem c6_best_effort_reverse_witness :
    createExit c6ExampleWorld 1 .north 2 false none none true =
      .ok (c6PrimaryWorld, some .DuplicateDirection) ∧
    c6PrimaryWorld.hasRoomExit 1 .north = true :=
  c6_best_effort_reverse c6ExampleWorld c6PrimaryWorld 1 .north 2 false none none
    .DuplicateDirection (by rfl) (by rfl)

/-- C7: `createExit` accepts a door with `is_locked = true`, a present
`lock_difficulty` and no required key, and rejects with `InvalidDoorSpec` a
door with `is_locked = true` but no `lock_difficulty` value. -/
theorem c7_invalid_door_spec (w : World) (src : Nat) (dir : Direction) (dst : Nat)
    (hidden : Bool) (trap : Option Trap) (rev : Bool)
    (nm : String) (dc : Int) (k : Option Nat)
    (hsrc : (w.findRoom src).isSome = true)
    (hfree : w.hasRoomExit src dir = false)
    (hdst : (w.findRoom dst).isSome = true) :
    (createExit w src dir dst hidden (some ⟨nm, true, some dc, none⟩) trap rev).toOption.isSome
      = true ∧
    createExit w src dir dst hidden (some ⟨nm, true, none, k⟩) trap rev =
      .error .InvalidDoorSpec := by
  obtain ⟨room, hf⟩ := Option.isSome_iff_exists.1 hsrc
  have hnd : room.hasDir dir = false := by
    unfold World.hasRoomExit at hfree
    rw [hf] at hfree
    exact hfree
  constructor
  · have hprim := createExitPrim_eq_ok w src dir dst hidden
      (some ⟨nm, true, some dc, none⟩) trap room hf hnd hdst rfl
    unfold createExit
    rw [hprim]
    cases rev with
    | false => rfl
    | true =>
      cases hrev : createExitPrim (w.insertExit src dir ⟨dst, hidden,
          some ⟨nm, true, some dc, none⟩, trap⟩) dst dir.inverseDir src hidden none none with
      | error e2 => simp [hrev, Except.toOption]
      | ok w2 => simp [hrev, Except.toOption]
  · unfold createExit createExitPrim
    rw [hf]
    have hbad : doorSpecOk (some ⟨nm, true, none, k⟩) = false := rfl
    simp [hnd, hdst, hbad]

def c7ExampleWorld : World :=
  ⟨[⟨1, 4, "Vault", "v", [], .arr [], .obj [], 0⟩,
    ⟨2, 4, "Antechamber", "a", [], .arr [], .obj [], 0⟩]⟩

/-- C7 at a concrete world: a locked door with difficulty 30 and no key is
accepted; a locked door without a difficulty is rejected. -/
theorem c7_invalid_door_spec_witness :
    (createExit c7ExampleWorld 1 .east 2 false
        (some ⟨"gate", true, some 30, none⟩) none true).toOption.isSome = true ∧
    createExit c7ExampleWorld 1 .east 2 false
        (some ⟨"gate", true, none, some 7⟩) none true = .error .InvalidDoorSpec :=
  c7_invalid_door_spec c7ExampleWorld 1 .east 2 false none true "gate" 30 (some 7)
    (by rfl) (by rfl) (by rfl)

/-!
## Claim C8
-/

/-- A door-bearing create-exit form: north to room 2, locked door "gate"
with difficulty 30 and no key. -/
def c8FailingForm : NewExitForm :=
  ⟨"north", 2, false, true, true, "gate", true, 30, none, false, 0, 0⟩

/-- C8: evaluation of the admin console's create-exit request at the
door-bearing form above.  The body actually posted is the flat `newExit`
state — top-level `door_name`, `is_locked`, `lock_difficulty`, and neither a
`details` carrier nor nested `door`/`trap` sub-objects — while the
built-but-unsent `exitData` value does carry the nested shape. -/
theorem c8_flat_request_body :
    (handleCreateExitBody c8FailingForm).hasField "door_name" = true ∧
    (handleCreateExitBody c8FailingForm).hasField "is_locked" = true ∧
    (handleCreateExitBody c8FailingForm).hasField "lock_difficulty" = true ∧
    (handleCreateExitBody c8FailingForm).hasField "details" = false ∧
    (handleCreateExitBody c8FailingForm).hasField "door" = false ∧
    (handleCreateExitBody c8FailingForm).hasField "trap" = false ∧
    (exitDataJson c8FailingForm).hasField "details" = true ∧
    ((exitDataJson c8FailingForm).getField "details").map (fun d => d.hasField "door") =
      some true :=
  ⟨rfl, rfl, rfl, rfl, rfl, rfl, rfl, rfl⟩

/-!
## Claim C9
-/

/-- Does every room carry a non-negative currency balance? -/
def World.coinageNonNeg (w : World) : Bool :=
  w.rooms.all (fun r => 0 ≤ r.coinage)

def c9ExampleWorld : World :=
  ⟨[⟨1, 1, "Plaza", "p", [], .arr [], .obj [], 0⟩]⟩

def c9NegUpdate : RoomUpdate :=
  ⟨1, "Plaza", "p", -5, .arr [], .obj []⟩

/-- C9 counterexample: a room write accepted by the schema (`coinage integer
NOT NULL`, no CHECK) and by the admin form (no `min` on the coinage input)
drives the room's balance negative, refuting the claimed bound. -/
theorem c9_counterexample_negative_coinage :
    World.coinageNonNeg c9ExampleWorld = true ∧
    World.coinageNonNeg (updateRoom c9ExampleWorld 1 c9NegUpdate) = false :=
  ⟨rfl, rfl⟩

theorem findRoom_updateRoom (w : World) (rid : Nat) (u : RoomUpdate) (x : Nat) :
    (updateRoom w rid u).findRoom x =
      (w.findRoom x).map (fun r =>
        if r.id == rid then
          { r with area_id := u.area_id, name := u.name, description := u.description,
                   coinage := u.coinage, flags := u.flags, spawners := u.spawners }
        else r) := by
  unfold updateRoom World.findRoom
  refine find?_map_comm _ _ (fun r => ?_) x
  by_cases h : (r.id == rid) = true <;> simp [h]

/-- C9 amended: a room's currency balance is an integer (`NOT NULL`, default
0) with no sign restriction — a room update commits whatever integer the
form supplies, verbatim, negative values included. -/
theorem c9_coinage_written_verbatim (w : World) (rid : Nat) (u : RoomUpdate)
    (hr : (w.findRoom rid).isSome = true) :
    ((updateRoom w rid u).findRoom rid).map (fun r => r.coinage) = some u.coinage := by
  obtain ⟨room, hf⟩ := Option.isSome_iff_exists.1 hr
  rw [findRoom_updateRoom, hf]
  simp only [Option.map_some']
  rw [if_pos (findRoom_id w rid room hf)]

/-- C9 amended claim at the concrete negative write. -/
theorem c9_coinage_written_verbatim_witness :
    ((updateRoom c9ExampleWorld 1 c9NegUpdate).findRoom 1).map (fun r => r.coinage) =
      some (-5) :=
  c9_coinage_written_verbatim c9ExampleWorld 1 c9NegUpdate (by rfl)

end Chrozal
